import Mathlib

/-!
Verification of the multi-panel image synthesis and mask-compositing core.

This file gives a shallow embedding of the grid partitioner
(`sliceImageGrid` in `src/services/geminiService.ts`), the caller-side
truncation (`generateAndAddImage` in `src/App.tsx`), the coordinate mapper,
the paint surface stroke engine and the compositor (`Gallery` in
`src/unnamed/part_000` and `MaskEditor` in `src/components/DirectorDeck.tsx`),
and proves the specified properties about them.

Conventions:
- A raster is a width, a height and a total pixel map; pixels are RGBA with
  premultiplied rational components (the representation in which the 2D
  canvas source-over operator is linear).
- Machine floats of the source are modelled by rationals; `Math.floor` on
  the nonnegative integer division of the slicer is `Nat` division.
-/

/-- One RGBA pixel with premultiplied alpha; components are rationals. -/
structure Pixel where
  r : ℚ
  g : ℚ
  b : ℚ
  a : ℚ
deriving DecidableEq

/-- The fully transparent pixel (a cleared canvas cell). -/
def transparentPx : Pixel := ⟨0, 0, 0, 0⟩

/-- An image raster: native width/height plus a pixel map.
Models both decoded `Image` objects and `canvas` pixel buffers. -/
structure Raster where
  width : Nat
  height : Nat
  pixel : Nat → Nat → Pixel

/-- One tile of the grid slicer: the crop of `img` at source offset
`(sx, sy)` with size `w × h`.  Mirrors
`ctx.drawImage(img, sx, sy, w, h, 0, 0, w, h)` drawn onto a canvas of size
`w × h` that was just cleared: the destination receives exactly the source
rectangle's pixels (src/services/geminiService.ts lines 48-60). -/
def cropPiece (img : Raster) (sx sy w h : Nat) : Raster :=
  ⟨w, h, fun x y => img.pixel (sx + x) (sy + y)⟩

/-- Function `sliceImageGrid` from src/services/geminiService.ts lines 25-69:
`pieceWidth = floor(w / cols)`, `pieceHeight = floor(h / rows)`, then for
`r` in `[0, rows)` and `c` in `[0, cols)` (row-major) push the crop at
`(c * pieceWidth, r * pieceHeight)`. -/
def sliceImageGrid (img : Raster) (rows cols : Nat) : List Raster :=
  let pieceWidth := img.width / cols
  let pieceHeight := img.height / rows
  (List.range rows).flatMap fun r =>
    (List.range cols).map fun c =>
      cropPiece img (c * pieceWidth) (r * pieceHeight) pieceWidth pieceHeight

/-- The source rectangle of the composite raster that the tile of grid cell
`(r, c)` samples: x in `[c*cellW, c*cellW + cellW)`, y likewise. -/
def pieceSrcRegion (img : Raster) (rows cols r c : Nat) : Set (Nat × Nat) :=
  {p | c * (img.width / cols) ≤ p.1 ∧ p.1 < c * (img.width / cols) + img.width / cols
     ∧ r * (img.height / rows) ≤ p.2 ∧ p.2 < r * (img.height / rows) + img.height / rows}

/-- Row-major double loop over a rectangle of indices, written as a single
map over `List.range (R*C)` with `i ↦ (i / C, i % C)`. -/
theorem range_flatMap_closedForm {α : Type} (g : Nat → Nat → α) (R C : Nat) :
    (List.range R).flatMap (fun r => (List.range C).map (g r))
      = (List.range (R * C)).map (fun i => g (i / C) (i % C)) := by
  induction R with
  | zero => simp
  | succ n ih =>
    rw [List.range_succ, List.flatMap_append, ih, Nat.succ_mul, List.range_add,
      List.map_append, List.map_map]
    congr 1
    simp only [List.flatMap_cons, List.flatMap_nil, List.append_nil]
    apply List.map_congr_left
    intro j hj
    have hjC : j < C := List.mem_range.mp hj
    have hC : 0 < C := Nat.lt_of_le_of_lt (Nat.zero_le j) hjC
    simp only [Function.comp_apply]
    have h1 : (n * C + j) / C = n := by
      rw [Nat.mul_comm n C, Nat.mul_add_div hC, Nat.div_eq_of_lt hjC, Nat.add_zero]
    have h2 : (n * C + j) % C = j := by
      rw [Nat.mul_comm n C, Nat.mul_add_mod, Nat.mod_eq_of_lt hjC]
    rw [h1, h2]

/-- Closed form of the slicer: tile `i` (row-major) is the crop of cell
`(i / cols, i % cols)`. -/
theorem sliceImageGrid_eq (img : Raster) (rows cols : Nat) :
    sliceImageGrid img rows cols
      = (List.range (rows * cols)).map (fun i =>
          cropPiece img ((i % cols) * (img.width / cols))
            ((i / cols) * (img.height / rows))
            (img.width / cols) (img.height / rows)) := by
  unfold sliceImageGrid
  exact range_flatMap_closedForm
    (fun r c => cropPiece img (c * (img.width / cols)) (r * (img.height / rows))
      (img.width / cols) (img.height / rows)) rows cols

/-- Two distinct cells of a one-dimensional uniform partition sample
disjoint index intervals. -/
theorem cell_interval_disjoint {a b q x : Nat} (hab : a ≠ b)
    (hxa : a * q ≤ x ∧ x < a * q + q) (hxb : b * q ≤ x ∧ x < b * q + q) : False := by
  rcases Nat.eq_zero_or_pos q with hq | hq
  · subst hq
    exact Nat.lt_irrefl _ (Nat.lt_of_lt_of_le hxa.2 (by simp))
  · have ha : x / q = a := by
      have h2 : x < (a + 1) * q := by rw [Nat.succ_mul]; exact hxa.2
      exact Nat.div_eq_of_lt_le hxa.1 h2
    have hb : x / q = b := by
      have h2 : x < (b + 1) * q := by rw [Nat.succ_mul]; exact hxb.2
      exact Nat.div_eq_of_lt_le hxb.1 h2
    exact hab (ha ▸ hb)

/-- C1: for every composite raster of width W ≥ 1 and height H ≥ 1 and every
grid of R ≥ 1 rows and C ≥ 1 columns, `sliceImageGrid` produces exactly R·C
tiles, each of size `floor(W/C) × floor(H/R)`, in row-major order with the
tile for cell `(r, c)` cropped at offset `(c·floor(W/C), r·floor(H/R))`;
tiles sample pairwise disjoint source regions, and every sampled source
coordinate lies below `cellW·C ≤ W` and `cellH·R ≤ H`, so the remainder
pixels beyond those bounds appear in no tile (discarded, never
redistributed or resampled). -/
theorem sliceImageGrid_spec (img : Raster) (rows cols : Nat)
    (_hW : 1 ≤ img.width) (_hH : 1 ≤ img.height) (_hR : 1 ≤ rows) (hC : 1 ≤ cols) :
    (sliceImageGrid img rows cols).length = rows * cols
    ∧ (∀ r c, r < rows → c < cols →
        (sliceImageGrid img rows cols)[r * cols + c]?
          = some (cropPiece img (c * (img.width / cols)) (r * (img.height / rows))
              (img.width / cols) (img.height / rows)))
    ∧ (∀ t ∈ sliceImageGrid img rows cols,
        t.width = img.width / cols ∧ t.height = img.height / rows)
    ∧ (∀ r c r' c', r < rows → c < cols → r' < rows → c' < cols → (r, c) ≠ (r', c') →
        ∀ p : Nat × Nat, p ∈ pieceSrcRegion img rows cols r c →
          p ∉ pieceSrcRegion img rows cols r' c')
    ∧ (∀ r c, r < rows → c < cols →
        ∀ p : Nat × Nat, p ∈ pieceSrcRegion img rows cols r c →
          p.1 < (img.width / cols) * cols ∧ p.2 < (img.height / rows) * rows)
    ∧ (img.width / cols) * cols ≤ img.width
    ∧ (img.height / rows) * rows ≤ img.height := by
  refine ⟨?_, ?_, ?_, ?_, ?_, ?_, ?_⟩
  · rw [sliceImageGrid_eq, List.length_map, List.length_range]
  · intro r c hr hc
    have hidx : r * cols + c < rows * cols := by
      have h1 : r * cols + c < (r + 1) * cols := by
        rw [Nat.succ_mul]; exact Nat.add_lt_add_left hc _
      exact Nat.lt_of_lt_of_le h1 (Nat.mul_le_mul_right cols hr)
    rw [sliceImageGrid_eq, List.getElem?_map, List.getElem?_range hidx]
    have hcols : 0 < cols := hC
    have h1 : (r * cols + c) / cols = r := by
      rw [Nat.mul_comm r cols, Nat.mul_add_div hcols, Nat.div_eq_of_lt hc, Nat.add_zero]
    have h2 : (r * cols + c) % cols = c := by
      rw [Nat.mul_comm r cols, Nat.mul_add_mod, Nat.mod_eq_of_lt hc]
    simp [h1, h2]
  · intro t ht
    rw [sliceImageGrid_eq] at ht
    rcases List.mem_map.mp ht with ⟨i, _, hi⟩
    rw [← hi]
    exact ⟨rfl, rfl⟩
  · intro r c r' c' _ _ _ _ hne p hp hp'
    rcases hp with ⟨hx1, hx2, hy1, hy2⟩
    rcases hp' with ⟨hx1', hx2', hy1', hy2'⟩
    rcases Decidable.em (c = c') with hcc | hcc
    · rcases Decidable.em (r = r') with hrr | hrr
      · exact hne (by rw [hrr, hcc])
      · exact cell_interval_disjoint hrr ⟨hy1, hy2⟩ ⟨hy1', hy2'⟩
    · exact cell_interval_disjoint hcc ⟨hx1, hx2⟩ ⟨hx1', hx2'⟩
  · intro r c hr hc p hp
    rcases hp with ⟨_, hx2, _, hy2⟩
    constructor
    · have h1 : p.1 < (c + 1) * (img.width / cols) := by rw [Nat.succ_mul]; exact hx2
      have h2 : (c + 1) * (img.width / cols) ≤ cols * (img.width / cols) :=
        Nat.mul_le_mul_right (img.width / cols) hc
      have h3 : cols * (img.width / cols) = img.width / cols * cols := Nat.mul_comm _ _
      exact Nat.lt_of_lt_of_le h1 (h3 ▸ h2)
    · have h1 : p.2 < (r + 1) * (img.height / rows) := by rw [Nat.succ_mul]; exact hy2
      have h2 : (r + 1) * (img.height / rows) ≤ rows * (img.height / rows) :=
        Nat.mul_le_mul_right (img.height / rows) hr
      have h3 : rows * (img.height / rows) = img.height / rows * rows := Nat.mul_comm _ _
      exact Nat.lt_of_lt_of_le h1 (h3 ▸ h2)
  · exact Nat.div_mul_le_self img.width cols
  · exact Nat.div_mul_le_self img.height rows

/-- A concrete 10×8 composite raster used to instantiate `sliceImageGrid_spec`. -/
def testImgC1 : Raster := ⟨10, 8, fun x y => ⟨(x : ℚ), (y : ℚ), 0, 1⟩⟩

/-- Witness for C1: the 2×3 slicing of a concrete 10×8 raster yields 6 tiles. -/
theorem sliceImageGrid_spec_witness :
    (sliceImageGrid testImgC1 2 3).length = 2 * 3 :=
  (sliceImageGrid_spec testImgC1 2 3 (by decide) (by decide) (by decide) (by decide)).1

/-- The caller-side truncation from `generateAndAddImage` in src/App.tsx
line 616: `const slices = result.slices.slice(0, count)` — take the first
`count` of the row-major tiles, discarding the trailing ones without
inspecting their content. -/
def truncatedSlices (img : Raster) (rows cols count : Nat) : List Raster :=
  (sliceImageGrid img rows cols).take count

/-- C2: for every requested panel count P ≤ R·C the truncated slice list has
length exactly P, agrees with the untruncated row-major tile list on every
index below P (so tile `i` is the crop of grid cell
`(i / cols, i % cols)`), and for a 900×600 raster with R=2, C=3, P=5 it is
precisely the five 300×300 crops (r0,c0),(r0,c1),(r0,c2),(r1,c0),(r1,c1). -/
theorem truncatedSlices_spec (img : Raster) (rows cols count : Nat)
    (hcount : count ≤ rows * cols) :
    (truncatedSlices img rows cols count).length = count
    ∧ (∀ i, i < count →
        (truncatedSlices img rows cols count)[i]?
          = some (cropPiece img ((i % cols) * (img.width / cols))
              ((i / cols) * (img.height / rows))
              (img.width / cols) (img.height / rows)))
    ∧ (∀ i, i < count →
        (truncatedSlices img rows cols count)[i]? = (sliceImageGrid img rows cols)[i]?)
    ∧ (img.width = 900 → img.height = 600 → rows = 2 → cols = 3 → count = 5 →
        truncatedSlices img rows cols count
          = [cropPiece img 0 0 300 300, cropPiece img 300 0 300 300,
             cropPiece img 600 0 300 300, cropPiece img 0 300 300 300,
             cropPiece img 300 300 300 300]) := by
  have hlen : (sliceImageGrid img rows cols).length = rows * cols := by
    rw [sliceImageGrid_eq, List.length_map, List.length_range]
  have htake : ∀ i, i < count →
      (truncatedSlices img rows cols count)[i]? = (sliceImageGrid img rows cols)[i]? :=
    fun i hi => List.getElem?_take_of_lt hi
  refine ⟨?_, ?_, htake, ?_⟩
  · rw [truncatedSlices, List.length_take, hlen, Nat.min_eq_left hcount]
  · intro i hi
    rw [htake i hi, sliceImageGrid_eq, List.getElem?_map,
      List.getElem?_range (Nat.lt_of_lt_of_le hi hcount)]
    rfl
  · intro hw hh hrows hcols hcnt
    subst hrows hcols hcnt
    rw [truncatedSlices, sliceImageGrid_eq, hw, hh]
    rfl

/-- A concrete 900×600 composite raster for the C2 concrete scenario. -/
def testImgC2 : Raster := ⟨900, 600, fun x y => ⟨(x : ℚ), (y : ℚ), 1, 1⟩⟩

/-- Witness for C2: the concrete 900×600 / 2×3 / P=5 scenario. -/
theorem truncatedSlices_spec_witness :
    truncatedSlices testImgC2 2 3 5
      = [cropPiece testImgC2 0 0 300 300, cropPiece testImgC2 300 0 300 300,
         cropPiece testImgC2 600 0 300 300, cropPiece testImgC2 0 300 300 300,
         cropPiece testImgC2 300 300 300 300] :=
  (truncatedSlices_spec testImgC2 2 3 5 (by decide)).2.2.2 rfl rfl rfl rfl rfl

/-- Native size of a decoded base image (`naturalWidth × naturalHeight` of
an `HTMLImageElement`). -/
structure ImageInfo where
  naturalWidth : Nat
  naturalHeight : Nat

/-- The rendered bounding rectangle of the canvas element on screen, as
returned by `getBoundingClientRect()`: CSS position of its top-left corner
plus rendered (possibly CSS-scaled) width and height. -/
structure DisplayRect where
  left : ℚ
  top : ℚ
  width : ℚ
  height : ℚ

/-- Function `getCoordinates` from the Gallery lightbox editor (src/unnamed/part_000
lines 344-358; identically in src/components/DirectorDeck.tsx lines
218-225): if either the canvas ref or the image ref is unavailable it
returns `(0, 0)`; otherwise it computes `scaleX = canvas.width / rect.width`
and `scaleY = canvas.height / rect.height` afresh and returns
`((clientX - rect.left) * scaleX, (clientY - rect.top) * scaleY)`. -/
def getCoordinates (canvasRef : Option Raster) (imageRef : Option ImageInfo)
    (rect : DisplayRect) (clientX clientY : ℚ) : ℚ × ℚ :=
  match canvasRef, imageRef with
  | some canvas, some _ =>
      let scaleX := (canvas.width : ℚ) / rect.width
      let scaleY := (canvas.height : ℚ) / rect.height
      ((clientX - rect.left) * scaleX, (clientY - rect.top) * scaleY)
  | _, _ => (0, 0)

/-- C3: with both refs available, for every native raster size, every
rendered size with positive width/height, and every pointer position
`(px, py)` relative to the surface's top-left corner (`clientX =
rect.left + px`), `getCoordinates` returns exactly
`(px·W/w, py·H/h)` with no clamping; `(0,0)` maps to `(0,0)`, `(w,h)` maps
to `(W,H)`, and identical inputs always yield identical outputs. -/
theorem getCoordinates_spec (canvas : Raster) (info : ImageInfo)
    (rect : DisplayRect) (px py : ℚ) (hw : 0 < rect.width) (hh : 0 < rect.height) :
    getCoordinates (some canvas) (some info) rect (rect.left + px) (rect.top + py)
      = (px * (canvas.width : ℚ) / rect.width, py * (canvas.height : ℚ) / rect.height)
    ∧ getCoordinates (some canvas) (some info) rect (rect.left + 0) (rect.top + 0)
      = (0, 0)
    ∧ getCoordinates (some canvas) (some info) rect
        (rect.left + rect.width) (rect.top + rect.height)
      = ((canvas.width : ℚ), (canvas.height : ℚ))
    ∧ (∀ qx qy, qx = rect.left + px → qy = rect.top + py →
        getCoordinates (some canvas) (some info) rect qx qy
          = getCoordinates (some canvas) (some info) rect (rect.left + px) (rect.top + py)) := by
  refine ⟨?_, ?_, ?_, ?_⟩
  · unfold getCoordinates
    simp only
    rw [add_sub_cancel_left, add_sub_cancel_left, mul_div_assoc, mul_div_assoc]
  · unfold getCoordinates
    simp
  · unfold getCoordinates
    simp only
    rw [add_sub_cancel_left, add_sub_cancel_left]
    rw [div_eq_mul_inv, div_eq_mul_inv, ← mul_assoc, ← mul_assoc,
      mul_comm rect.width, mul_comm rect.height]
    rw [mul_assoc, mul_assoc, mul_inv_cancel₀ (ne_of_gt hw),
      mul_inv_cancel₀ (ne_of_gt hh), mul_one, mul_one]
  · intro qx qy hqx hqy
    rw [hqx, hqy]

/-- Concrete 4×3 canvas raster for the coordinate-mapper witnesses. -/
def testCanvasC3 : Raster := ⟨4, 3, fun _ _ => transparentPx⟩

/-- Concrete display rectangle (top-left (10, 20), rendered 2×1). -/
def testRectC3 : DisplayRect := ⟨10, 20, 2, 1⟩

/-- Witness for C3: mapping the rendered bottom-right corner of a 2×1
surface displaying a 4×3 raster yields the raster's full size (4, 3). -/
theorem getCoordinates_spec_witness :
    getCoordinates (some testCanvasC3) (some ⟨4, 3⟩) testRectC3
        (testRectC3.left + testRectC3.width) (testRectC3.top + testRectC3.height)
      = ((testCanvasC3.width : ℚ), (testCanvasC3.height : ℚ)) :=
  (getCoordinates_spec testCanvasC3 ⟨4, 3⟩ testRectC3 1 1
    (by norm_num [testRectC3]) (by norm_num [testRectC3])).2.2.1

/-- C10: `getCoordinates` is total; whenever the canvas ref or the image ref
is unavailable it returns the raster origin `(0, 0)` instead of failing, so
downstream drawing primitives always receive a point. -/
theorem getCoordinates_default_on_missing_refs (canvasRef : Option Raster)
    (imageRef : Option ImageInfo) (rect : DisplayRect) (clientX clientY : ℚ)
    (h : canvasRef = none ∨ imageRef = none) :
    getCoordinates canvasRef imageRef rect clientX clientY = (0, 0) := by
  rcases h with h | h
  · subst h
    cases imageRef <;> rfl
  · subst h
    cases canvasRef <;> rfl

/-- Witness for C10: missing canvas ref maps any pointer position to (0,0). -/
theorem getCoordinates_default_witness :
    getCoordinates none (some ⟨4, 3⟩) testRectC3 57 (-9) = (0, 0) :=
  getCoordinates_default_on_missing_refs none (some ⟨4, 3⟩) testRectC3 57 (-9)
    (Or.inl rfl)

/-- The two drawing tools of the Gallery lightbox editor
(`type ToolType = 'brush' | 'rect'` in src/unnamed/part_000 line 272). -/
inductive ToolType where
  | brush
  | rect
deriving DecidableEq

/-- The 2D drawing-surface primitives used by the stroke engine, kept
abstract because the browser's path rasterizer (round caps/joins,
anti-aliasing) is platform code: `strokeSegment lw r p q` renders one path
segment from `p` to `q` with line width `lw` onto raster `r`
(`lineTo`+`stroke`), and `strokeRectOutline lw r a q` renders the outline
of the rectangle spanned by anchor `a` and corner `q` onto raster `r`
(`beginPath`+`rect`+`stroke`).  Both are deterministic functions. -/
structure StrokeOps where
  strokeSegment : ℚ → Raster → (ℚ × ℚ) → (ℚ × ℚ) → Raster
  strokeRectOutline : ℚ → Raster → (ℚ × ℚ) → (ℚ × ℚ) → Raster

/-- The mutable drawing state of the Gallery lightbox editor: the overlay
canvas raster, `snapshotRef`, `startPosRef`, the current path point
(`moveTo`/`lineTo` cursor), the `isDrawing` and `isPainting` flags, the
active tool, the brush size, and the context's current line width. -/
structure PaintState where
  canvas : Raster
  snapshot : Option Raster
  startPos : ℚ × ℚ
  pathPos : ℚ × ℚ
  isDrawing : Bool
  isPainting : Bool
  activeTool : ToolType
  brushSize : ℚ
  lineWidth : ℚ

/-- Handler `startDrawing` from src/unnamed/part_000 lines 360-380: a no-op unless
painting mode is on; otherwise set `isDrawing`, snapshot the full overlay
raster (`getImageData`), remember the anchor, set the stroke style with
`lineWidth = brushSize * (canvas.width / 1000)`, and for the brush tool
begin a path at the mapped point. -/
def startDrawing (s : PaintState) (p : ℚ × ℚ) : PaintState :=
  if !s.isPainting then s
  else
    let s1 : PaintState :=
      { s with isDrawing := true, snapshot := some s.canvas, startPos := p,
               lineWidth := s.brushSize * ((s.canvas.width : ℚ) / 1000) }
    match s1.activeTool with
    | .brush => { s1 with pathPos := p }
    | .rect => s1

/-- Handler `draw` from src/unnamed/part_000 lines 382-406: a no-op unless both
`isDrawing` and `isPainting`; the brush tool extends the path by one
rendered segment; the rect tool, when a snapshot exists, restores the
overlay to the snapshot (`putImageData`) and strokes one rectangle outline
from the anchor to the current point. -/
def draw (ops : StrokeOps) (s : PaintState) (p : ℚ × ℚ) : PaintState :=
  if !s.isDrawing || !s.isPainting then s
  else
    match s.activeTool with
    | .brush =>
        { s with canvas := ops.strokeSegment s.lineWidth s.canvas s.pathPos p,
                 pathPos := p }
    | .rect =>
        match s.snapshot with
        | some snap =>
            { s with canvas := ops.strokeRectOutline s.lineWidth snap s.startPos p }
        | none => s

/-- Handler `stopDrawing` from src/unnamed/part_000 lines 408-411: clear the
`isDrawing` flag; the current overlay content is committed simply because
the snapshot is no longer restored. -/
def stopDrawing (s : PaintState) : PaintState :=
  { s with isDrawing := false }

/-- During a rect stroke, folding any nonempty move list over `draw` leaves
the overlay equal to one rectangle stroked over the pre-stroke snapshot,
from the anchor to the last move. -/
theorem foldl_draw_rect (ops : StrokeOps) :
    ∀ (m : ℚ × ℚ) (ms : List (ℚ × ℚ)) (s : PaintState) (snap : Raster),
      s.isPainting = true → s.isDrawing = true → s.activeTool = .rect →
      s.snapshot = some snap →
      ((m :: ms).foldl (draw ops) s).canvas
        = ops.strokeRectOutline s.lineWidth snap s.startPos ((m :: ms).getLast (by simp)) := by
  intro m ms
  induction ms generalizing m with
  | nil =>
    intro s snap hp hd ht hs
    simp [draw, hp, hd, ht, hs]
  | cons m2 ms2 ih =>
    intro s snap hp hd ht hs
    have hstep : draw ops s m
        = { s with canvas := ops.strokeRectOutline s.lineWidth snap s.startPos m } := by
      simp [draw, hp, hd, ht, hs]
    rw [List.foldl_cons, hstep]
    have := ih m2 { s with canvas := ops.strokeRectOutline s.lineWidth snap s.startPos m }
      snap hp hd ht hs
    rw [this]
    congr 1

/-- C4: RECT tool equivalence.  For every rasterizer, every painting state
with the RECT tool active, every pointer-down anchor and every nonempty
sequence of pointer moves, the overlay after the last move equals the
overlay obtained by restoring the pre-stroke snapshot once and stroking
only the final rectangle (anchor to last point) directly; pointer-up
commits it by leaving the overlay untouched. -/
theorem rect_preview_refinement (ops : StrokeOps) (s : PaintState)
    (anchor : ℚ × ℚ) (moves : List (ℚ × ℚ)) (hne : moves ≠ [])
    (hp : s.isPainting = true) (ht : s.activeTool = .rect) :
    (moves.foldl (draw ops) (startDrawing s anchor)).canvas
      = ops.strokeRectOutline (s.brushSize * ((s.canvas.width : ℚ) / 1000))
          s.canvas anchor (moves.getLast hne)
    ∧ (stopDrawing (moves.foldl (draw ops) (startDrawing s anchor))).canvas
      = (moves.foldl (draw ops) (startDrawing s anchor)).canvas := by
  have hstart : startDrawing s anchor
      = { s with isDrawing := true, snapshot := some s.canvas, startPos := anchor,
                 lineWidth := s.brushSize * ((s.canvas.width : ℚ) / 1000) } := by
    unfold startDrawing
    rw [hp]
    simp [ht]
  constructor
  · cases moves with
    | nil => exact absurd rfl hne
    | cons m ms =>
      rw [hstart]
      exact foldl_draw_rect ops m ms _ s.canvas (by simp [hp]) rfl (by simp [ht]) rfl
  · rfl

/-- Concrete rasterizer for the C4 witness: stamps the endpoints and line
width into every pixel. -/
def testOpsC4 : StrokeOps :=
  ⟨fun lw r p q => ⟨r.width, r.height, fun _ _ => ⟨lw, p.1, q.1, 1⟩⟩,
   fun lw r a q => ⟨r.width, r.height, fun _ _ => ⟨lw, a.2, q.2, 1⟩⟩⟩

/-- Concrete painting state for the C4 witness: RECT tool active on a
blank 200×100 overlay, brush size 10. -/
def testStateC4 : PaintState :=
  ⟨⟨200, 100, fun _ _ => transparentPx⟩, none, (0, 0), (0, 0), false, true,
    .rect, 10, 0⟩

/-- Witness for C4: after pointer-down at (1,2) and moves to (3,4) then
(5,6), the overlay equals one rectangle stroked directly over the
pre-stroke overlay from (1,2) to (5,6). -/
theorem rect_preview_refinement_witness :
    (([((3 : ℚ), (4 : ℚ)), (5, 6)]).foldl (draw testOpsC4)
        (startDrawing testStateC4 (1, 2))).canvas
      = testOpsC4.strokeRectOutline
          (testStateC4.brushSize * ((testStateC4.canvas.width : ℚ) / 1000))
          testStateC4.canvas (1, 2) (5, 6) :=
  (rect_preview_refinement testOpsC4 testStateC4 (1, 2) [(3, 4), (5, 6)]
    (by simp) rfl rfl).1

/-- The MaskEditor brush scaling from src/components/DirectorDeck.tsx line
235: `ctx.lineWidth = brushSize * (canvasRef.current!.width / 800)` — the
same resolution-independent scaling with reference unit width 800. -/
def maskEditorLineWidth (brushSize canvasWidth : ℚ) : ℚ :=
  brushSize * (canvasWidth / 800)

/-- C5: at pointer-down the effective stroke width is
`brushSize × (nativeRasterWidth / referenceUnitWidth)` at every editing
surface: the Gallery lightbox editor uses reference unit width 1000 and the
MaskEditor uses 800; in particular brush size 20 on a 2000-wide raster with
reference unit width 1000 gives an effective width of 40 raster units. -/
theorem brush_lineWidth_spec (s : PaintState) (p : ℚ × ℚ) (b W : ℚ)
    (_hlo : 5 ≤ s.brushSize) (_hhi : s.brushSize ≤ 100) (hp : s.isPainting = true) :
    (startDrawing s p).lineWidth = s.brushSize * ((s.canvas.width : ℚ) / 1000)
    ∧ maskEditorLineWidth b W = b * (W / 800)
    ∧ (s.brushSize = 20 → (s.canvas.width : ℚ) = 2000 →
        (startDrawing s p).lineWidth = 40) := by
  have hstart : (startDrawing s p).lineWidth
      = s.brushSize * ((s.canvas.width : ℚ) / 1000) := by
    unfold startDrawing
    rw [hp]
    cases htool : s.activeTool <;> simp [htool]
  refine ⟨hstart, rfl, ?_⟩
  intro hb hW
  rw [hstart, hb, hW]
  norm_num

/-- Concrete painting state for the C5 witness: brush size 20 on a
2000×1500 overlay raster. -/
def testStateC5 : PaintState :=
  ⟨⟨2000, 1500, fun _ _ => transparentPx⟩, none, (0, 0), (0, 0), false, true,
    .brush, 20, 0⟩

/-- Witness for C5: brush size 20 on a 2000-wide raster yields effective
line width 40. -/
theorem brush_lineWidth_spec_witness :
    (startDrawing testStateC5 (0, 0)).lineWidth = 40 :=
  (brush_lineWidth_spec testStateC5 (0, 0) 1 1 (by norm_num [testStateC5])
    (by norm_num [testStateC5]) rfl).2.2 rfl (by norm_num [testStateC5])

/-- Modelled from the spec: standard alpha-over (source-over) blending of
one source pixel over one destination pixel, in premultiplied form — the
2D canvas default composite operator applied by `ctx.drawImage`, which is a
platform primitive not present under src/. -/
def over (src dst : Pixel) : Pixel :=
  ⟨src.r + dst.r * (1 - src.a), src.g + dst.g * (1 - src.a),
   src.b + dst.b * (1 - src.a), src.a + dst.a * (1 - src.a)⟩

/-- A freshly created canvas of the given size: every pixel transparent. -/
def blankCanvas (w h : Nat) : Raster :=
  ⟨w, h, fun _ _ => transparentPx⟩

/-- Operation `ctx.drawImage(src, 0, 0)`: draw `src` at the origin of `dst` with
source-over blending; destination pixels outside `src`'s bounds are
untouched. -/
def drawImageAtOrigin (dst src : Raster) : Raster :=
  ⟨dst.width, dst.height, fun x y =>
    if x < src.width ∧ y < src.height then over (src.pixel x y) (dst.pixel x y)
    else dst.pixel x y⟩

/-- The compositing step of `handleSaveComposite` (src/unnamed/part_000
lines 417-430): create a temporary canvas with the base image's natural
size, draw the base image at the origin, then draw the overlay canvas at
the origin. -/
def compositeImages (base overlay : Raster) : Raster :=
  drawImageAtOrigin (drawImageAtOrigin (blankCanvas base.width base.height) base) overlay

/-- Outcome of the export path: either a composited raster is produced and
handed to `onAddImage`, or the handler returns early doing nothing — the
source has no error constructor at all on this path. -/
inductive SaveOutcome where
  | saved (out : Raster)
  | silentNoop

/-- Metadata of the image open in the lightbox (only presence matters for
the export precondition check). -/
structure PreviewInfo where
  prompt : String
  aspect : String

/-- Handler `handleSaveComposite` from src/unnamed/part_000 lines 413-446:
`if (!previewImage || !canvasRef.current || !imageRef.current || !onAddImage)
return;` — an early return producing nothing (no thrown error, no reported
failure); then `if (!ctx) return;` — again a silent early return; otherwise
draw the base image and the overlay canvas onto a temporary canvas of the
base's natural size and hand the result to `onAddImage`. -/
def handleSaveComposite (previewImage : Option PreviewInfo)
    (canvasRef : Option Raster) (imageRef : Option Raster)
    (hasOnAddImage : Bool) (ctxAvailable : Bool) : SaveOutcome :=
  match previewImage, canvasRef, imageRef, hasOnAddImage with
  | some _, some overlay, some base, true =>
      if ctxAvailable then .saved (compositeImages base overlay)
      else .silentNoop
  | _, _, _, _ => .silentNoop

/-- Concrete lightbox metadata for the C6 evaluation. -/
def testPreviewC6 : PreviewInfo := ⟨"shot", "16:9"⟩

/-- Concrete 2×2 base raster for the C6 evaluation. -/
def testBaseC6 : Raster := ⟨2, 2, fun _ _ => ⟨1, 0, 0, 1⟩⟩

/-- C6 (code evaluated at the failing inputs): when the overlay raster is
not yet available, or the base raster is not yet available, or the drawing
context cannot be acquired, `handleSaveComposite` silently does nothing —
it returns without producing any outcome or raising any typed precondition
error, contradicting the claimed (and specified) loud-failure behavior;
moreover a missing overlay yields the silent no-op for every combination of
the remaining inputs. -/
theorem handleSaveComposite_silent_noop :
    handleSaveComposite (some testPreviewC6) none (some testBaseC6) true true
      = SaveOutcome.silentNoop
    ∧ handleSaveComposite (some testPreviewC6) (some testBaseC6) none true true
      = SaveOutcome.silentNoop
    ∧ handleSaveComposite (some testPreviewC6) (some testBaseC6) (some testBaseC6)
        true false = SaveOutcome.silentNoop
    ∧ (∀ (pv : Option PreviewInfo) (im : Option Raster) (f ctx : Bool),
        handleSaveComposite pv none im f ctx = SaveOutcome.silentNoop) := by
  refine ⟨rfl, rfl, rfl, ?_⟩
  intro pv im f ctx
  cases pv <;> cases im <;> cases f <;> rfl

/-- C7: compositing laws of the export path.  For every base raster and
overlay raster of identical native resolution: a fully transparent overlay
leaves the output pixel-identical to the base on the whole canvas; a fully
opaque overlay leaves it pixel-identical to the overlay; in general every
output pixel is the alpha-over blend of the overlay pixel over the base
pixel at the same location; and the output raster has the base's native
size. -/
theorem compositeImages_spec (base overlay : Raster)
    (hwidth : overlay.width = base.width) (hheight : overlay.height = base.height) :
    ((∀ x y, overlay.pixel x y = transparentPx) →
      ∀ x y, x < base.width → y < base.height →
        (compositeImages base overlay).pixel x y = base.pixel x y)
    ∧ ((∀ x y, (overlay.pixel x y).a = 1) →
      ∀ x y, x < base.width → y < base.height →
        (compositeImages base overlay).pixel x y = overlay.pixel x y)
    ∧ (∀ x y, x < base.width → y < base.height →
        (compositeImages base overlay).pixel x y
          = over (overlay.pixel x y) (base.pixel x y))
    ∧ (compositeImages base overlay).width = base.width
    ∧ (compositeImages base overlay).height = base.height := by
  have hpix : ∀ x y, x < base.width → y < base.height →
      (compositeImages base overlay).pixel x y
        = over (overlay.pixel x y) (base.pixel x y) := by
    intro x y hx hy
    unfold compositeImages drawImageAtOrigin blankCanvas
    simp only
    rw [if_pos ⟨hwidth ▸ hx, hheight ▸ hy⟩, if_pos ⟨hx, hy⟩]
    have hbase : over (base.pixel x y) transparentPx = base.pixel x y := by
      unfold over transparentPx
      cases hb : base.pixel x y
      simp
    rw [hbase]
  refine ⟨?_, ?_, hpix, rfl, rfl⟩
  · intro htrans x y hx hy
    rw [hpix x y hx hy, htrans]
    unfold over transparentPx
    cases hb : base.pixel x y
    simp
  · intro hopaque x y hx hy
    rw [hpix x y hx hy]
    unfold over
    have ha := hopaque x y
    rw [ha]
    cases ho : overlay.pixel x y
    cases hb : base.pixel x y
    rw [ho] at ha
    simp at ha
    simp [ha]

/-- Concrete 1×1 opaque red base raster for the C7 witness. -/
def testBaseC7 : Raster := ⟨1, 1, fun _ _ => ⟨1, 0, 0, 1⟩⟩

/-- Concrete 1×1 fully transparent overlay raster for the C7 witness. -/
def testOverlayC7 : Raster := ⟨1, 1, fun _ _ => transparentPx⟩

/-- Witness for C7: compositing the fully transparent 1×1 overlay over the
1×1 base reproduces the base pixel. -/
theorem compositeImages_spec_witness :
    (compositeImages testBaseC7 testOverlayC7).pixel 0 0 = testBaseC7.pixel 0 0 :=
  (compositeImages_spec testBaseC7 testOverlayC7 rfl rfl).1 (fun _ _ => rfl) 0 0
    (by decide) (by decide)

/-- The per-image editing session held by the open lightbox: the base image
reference, the overlay canvas raster, the `isPainting` flag and the active
tool.  It exists exactly while `previewImage` is set (the canvas element is
mounted inside the `previewImage && (...)` conditional, src/unnamed/part_000
lines 664-692). -/
structure PaintSessionState where
  base : ImageInfo
  overlay : Raster
  isPainting : Bool
  activeTool : ToolType

/-- The Gallery component state relevant to the editor lifecycle: the
session (present iff the lightbox is open), the component-level
`snapshotRef` and `isDrawing` flag — which live OUTSIDE the lightbox
conditional (src/unnamed/part_000 lines 296, 304) and therefore survive
closing and reopening — and the rendered display size of the surface. -/
structure GalleryLifecycleState where
  session : Option PaintSessionState
  snapshotRef : Option Raster
  isDrawingFlag : Bool
  displayWidth : ℚ
  displayHeight : ℚ

/-- A freshly mounted canvas element: the HTML default 300×150, blank. -/
def defaultCanvas : Raster := ⟨300, 150, fun _ _ => transparentPx⟩

/-- The canvas-sizing effect from src/unnamed/part_000 lines 308-320: if the
canvas resolution differs from the image's natural size, set it to the
natural size (which clears the canvas); otherwise leave the canvas alone. -/
def effectSizeCanvas (cvs : Raster) (img : ImageInfo) : Raster :=
  if cvs.width ≠ img.naturalWidth ∨ cvs.height ≠ img.naturalHeight then
    ⟨img.naturalWidth, img.naturalHeight, fun _ _ => transparentPx⟩
  else cvs

/-- Events of the editor lifecycle, as wired in src/unnamed/part_000:
`openImage` is `handleImageClick` (lines 322-327; only reachable while the
lightbox is closed, since the open lightbox covers the grid) followed by
the mount of a fresh canvas and the sizing effect; `closePreview` is
`setPreviewImage(null)`, unmounting the canvas; `setPainting` is the edit
mode toggle; `startStroke`/`endStroke` are the `isDrawing`/`snapshotRef`
effects of `startDrawing`/`stopDrawing`; `paintPixels` is any synchronous
stroke rendering on the overlay (path/rect stroking and `putImageData`),
which updates pixels but never the canvas resolution; `displayResize` is a
layout reflow changing only the rendered (CSS) size of the surface. -/
inductive GalleryEvent where
  | openImage (img : ImageInfo)
  | closePreview
  | setPainting (b : Bool)
  | startStroke
  | paintPixels (f : (Nat → Nat → Pixel) → Nat → Nat → Pixel)
  | endStroke
  | displayResize (w h : ℚ)


/-- The session created by `handleImageClick` plus the canvas mount and the
sizing effect: base set to the clicked image, overlay = the freshly mounted
default canvas passed through the sizing effect, painting mode off, brush
tool selected. -/
def freshSession (img : ImageInfo) : PaintSessionState :=
  ⟨img, effectSizeCanvas defaultCanvas img, false, .brush⟩

/-- One lifecycle transition (see `GalleryEvent` for the source mapping). -/
def applyEvent (s : GalleryLifecycleState) : GalleryEvent → GalleryLifecycleState
  | .openImage img => { s with session := some (freshSession img) }
  | .closePreview => { s with session := none }
  | .setPainting b =>
      match s.session with
      | some ss => { s with session := some { ss with isPainting := b } }
      | none => s
  | .startStroke =>
      match s.session with
      | some ss =>
          if ss.isPainting then
            { s with isDrawingFlag := true, snapshotRef := some ss.overlay }
          else s
      | none => s
  | .paintPixels f =>
      match s.session with
      | some ss =>
          if s.isDrawingFlag && ss.isPainting then
            let ov : Raster := ⟨ss.overlay.width, ss.overlay.height, f ss.overlay.pixel⟩
            { s with session := some { ss with overlay := ov } }
          else s
      | none => s
  | .endStroke => { s with isDrawingFlag := false }
  | .displayResize w h => { s with displayWidth := w, displayHeight := h }

/-- The initial Gallery state: no lightbox open, no snapshot, not drawing. -/
def initialLifecycle : GalleryLifecycleState := ⟨none, none, false, 0, 0⟩

/-- Run a sequence of lifecycle events from the initial state. -/
def runEvents (evs : List GalleryEvent) : GalleryLifecycleState :=
  evs.foldl applyEvent initialLifecycle

/-- The overlay-resolution invariant: whenever a session is allocated, its
overlay raster has exactly the base image's natural resolution. -/
def OverlayMatchesBase (s : GalleryLifecycleState) : Prop :=
  ∀ ss, s.session = some ss →
    ss.overlay.width = ss.base.naturalWidth ∧ ss.overlay.height = ss.base.naturalHeight

/-- The sizing effect always leaves the canvas at the image's natural size. -/
theorem effectSizeCanvas_dims (cvs : Raster) (img : ImageInfo) :
    (effectSizeCanvas cvs img).width = img.naturalWidth
    ∧ (effectSizeCanvas cvs img).height = img.naturalHeight := by
  unfold effectSizeCanvas
  split
  · exact ⟨rfl, rfl⟩
  · rename_i h
    push_neg at h
    exact h

/-- Every single lifecycle transition preserves the overlay-resolution
invariant. -/
theorem applyEvent_preserves_overlay (s : GalleryLifecycleState)
    (e : GalleryEvent) (hs : OverlayMatchesBase s) :
    OverlayMatchesBase (applyEvent s e) := by
  intro ss hss
  cases e with
  | openImage img =>
    simp only [applyEvent, Option.some.injEq] at hss
    rw [← hss]
    exact effectSizeCanvas_dims defaultCanvas img
  | closePreview =>
    simp [applyEvent] at hss
  | setPainting b =>
    cases hcur : s.session with
    | none =>
      simp [applyEvent, hcur] at hss
    | some ss0 =>
      simp only [applyEvent, hcur, Option.some.injEq] at hss
      subst hss
      exact hs ss0 hcur
  | startStroke =>
    cases hcur : s.session with
    | none =>
      simp [applyEvent, hcur] at hss
    | some ss0 =>
      cases hpaint : ss0.isPainting with
      | true =>
        simp [applyEvent, hcur, hpaint] at hss
        subst hss
        exact hs ss0 hcur
      | false =>
        simp [applyEvent, hcur, hpaint] at hss
        subst hss
        exact hs ss0 hcur
  | paintPixels f =>
    cases hcur : s.session with
    | none =>
      simp [applyEvent, hcur] at hss
    | some ss0 =>
      cases hflag : (s.isDrawingFlag && ss0.isPainting) with
      | true =>
        simp [applyEvent, hcur, hflag] at hss
        subst hss
        exact hs ss0 hcur
      | false =>
        simp [applyEvent, hcur, hflag] at hss
        subst hss
        exact hs ss0 hcur
  | endStroke =>
    simp only [applyEvent] at hss
    exact hs ss hss
  | displayResize w h =>
    simp only [applyEvent] at hss
    exact hs ss hss

/-- The invariant holds after any event sequence from an invariant state. -/
theorem foldl_preserves_overlay (evs : List GalleryEvent)
    (s : GalleryLifecycleState) (hs : OverlayMatchesBase s) :
    OverlayMatchesBase (evs.foldl applyEvent s) := by
  induction evs generalizing s with
  | nil => exact hs
  | cons e rest ih =>
    rw [List.foldl_cons]
    exact ih (applyEvent s e) (applyEvent_preserves_overlay s e hs)

/-- C8: in every state reachable from the initial Gallery state by any
sequence of open / close / paint-mode / stroke / paint / display-resize
events, whenever the overlay raster is allocated its width and height equal
the base image's natural width and height — display scaling never changes
the stored overlay's resolution. -/
theorem overlay_resolution_invariant (evs : List GalleryEvent)
    (ss : PaintSessionState) (h : (runEvents evs).session = some ss) :
    ss.overlay.width = ss.base.naturalWidth
    ∧ ss.overlay.height = ss.base.naturalHeight := by
  have hinit : OverlayMatchesBase initialLifecycle := by
    intro ss0 hss0
    simp [initialLifecycle] at hss0
  exact foldl_preserves_overlay evs initialLifecycle hinit ss h

/-- Witness for C8: opening a 7×5 image and then scaling the display to 2×1
leaves the allocated overlay at the 7×5 native resolution. -/
theorem overlay_resolution_invariant_witness :
    (freshSession ⟨7, 5⟩).overlay.width = (freshSession ⟨7, 5⟩).base.naturalWidth
    ∧ (freshSession ⟨7, 5⟩).overlay.height = (freshSession ⟨7, 5⟩).base.naturalHeight :=
  overlay_resolution_invariant [.openImage ⟨7, 5⟩, .displayResize 2 1]
    (freshSession ⟨7, 5⟩) rfl

/-- The fresh overlay is always a blank raster at the image's natural size:
either the 300×150 default differs from the natural size and the sizing
effect replaces it with a cleared natural-size canvas, or the natural size
is exactly 300×150 and the (blank) default already is that canvas. -/
theorem effectSizeCanvas_default (img : ImageInfo) :
    effectSizeCanvas defaultCanvas img
      = ⟨img.naturalWidth, img.naturalHeight, fun _ _ => transparentPx⟩ := by
  unfold effectSizeCanvas
  split
  · rfl
  · rename_i h
    push_neg at h
    rw [show defaultCanvas
        = ⟨defaultCanvas.width, defaultCanvas.height, fun _ _ => transparentPx⟩ from rfl,
      h.1, h.2]

/-- C9 counterexample: after opening a 3×2 image, enabling painting,
pressing the pointer down (which stores the pre-stroke snapshot and sets
the drawing flag), closing the editor and opening a different 4×4 image,
the component-level snapshot reference is still populated and the drawing
flag is still set — so the claim that the pre-stroke snapshot and the
drawing flag are discarded unconditionally on close/open fails at this
concrete event sequence. -/
theorem session_destruction_counterexample :
    (runEvents [.openImage ⟨3, 2⟩, .setPainting true, .startStroke, .closePreview,
        .openImage ⟨4, 4⟩]).snapshotRef.isSome = true
    ∧ (runEvents [.openImage ⟨3, 2⟩, .setPainting true, .startStroke, .closePreview,
        .openImage ⟨4, 4⟩]).isDrawingFlag = true :=
  ⟨rfl, rfl⟩

/-- C9 (amended): closing the editor destroys the session, and opening an
image installs a session whose overlay is a blank raster at the new image's
native size — independent of the previous state, for every pair of
previous/new dimensions, with no dirty-state warning and no autosave of the
previous overlay; however the component-level drawing flag and pre-stroke
snapshot reference are not cleared by either transition (they persist until
the next pointer-down overwrites them). -/
theorem session_destruction_amended (s : GalleryLifecycleState) (img : ImageInfo) :
    (applyEvent s .closePreview).session = none
    ∧ (applyEvent s (.openImage img)).session
        = some ⟨img, ⟨img.naturalWidth, img.naturalHeight, fun _ _ => transparentPx⟩,
                false, .brush⟩
    ∧ (applyEvent s (.openImage img)).snapshotRef = s.snapshotRef
    ∧ (applyEvent s (.openImage img)).isDrawingFlag = s.isDrawingFlag
    ∧ (applyEvent s .closePreview).snapshotRef = s.snapshotRef
    ∧ (applyEvent s .closePreview).isDrawingFlag = s.isDrawingFlag := by
  refine ⟨rfl, ?_, rfl, rfl, rfl, rfl⟩
  simp only [applyEvent, freshSession, effectSizeCanvas_default]
